import Mathlib

/-!
# atvtool: a shallow embedding of `src/atvtool.c`

The program talks to the outside world only through libusb-0.1 calls, the
sysfs accesses of `usb_make_kernel_name` and `usb_attach_kernel_driver_np`,
`stdout`/`stderr` and `exit`.  The embedding records every such interaction, and
every read the program makes through the device handle, in program order, in a
trace of `Event`s carried by the process state `World`; what the outside world
answers is read from an `Env`.
-/

namespace Atvtool

/-! ## Constants of the source -/

def VENDOR_APPLE : Nat := 0x05ac
def PRODUCT_IR : Nat := 0x8241

def LEDMODE_OFF : Int := 0
def LEDMODE_AMBER : Int := 1
def LEDMODE_AMBER_BLINK : Int := 2
def LEDMODE_WHITE : Int := 3
def LEDMODE_WHITE_BLINK : Int := 4
def LEDMODE_BOTH : Int := 5
def LEDMODE_MAX : Int := 5

/-- The constant of `limits.h` (not part of the repository) on Linux. -/
def PATH_MAX : Nat := 4096

/-- The number of the signal that ends a process on an invalid memory access. -/
def SIGSEGV : Nat := 11

/-- Request-type bit of libusb-0.1 `usb.h` (not part of the repository): direction host-to-device. -/
def USB_ENDPOINT_OUT : Nat := 0x00
/-- Request-type bits of libusb-0.1 `usb.h`: class request, `(0x01 << 5)`. -/
def USB_TYPE_CLASS : Nat := 0x01 <<< 5
/-- Request-type bits of libusb-0.1 `usb.h`: interface recipient. -/
def USB_RECIP_INTERFACE : Nat := 0x01

/-! ## Data model -/

/-- The fields of libusb's `struct usb_device` that the program reads. -/
structure usb_device where
  idVendor : Nat
  idProduct : Nat
  devnum : Nat
  deriving DecidableEq, Repr

/-- The fields of libusb's `struct usb_bus` that the program reads; the linked
list `bus->devices` is a list. -/
structure usb_bus where
  dirname : String
  devices : List usb_device
  deriving DecidableEq, Repr

/-- A non-NULL `usb_dev_handle *`: the file descriptor, the bus and the device
it was opened on (the fields of `struct usb_dev_handle` the program can reach). -/
structure usb_dev_handle where
  fd : Int
  bus : usb_bus
  device : usb_device
  deriving DecidableEq, Repr

/-- One interaction of the process with the outside world: a libusb call, a
read by the program of `dev->bus` and `dev->device` through a handle
(`handle_read`), a file-system call, or output. -/
inductive Event where
  | usb_init
  | usb_find_busses
  | usb_find_devices
  | usb_open (dev : usb_device)
  | usb_detach_kernel_driver_np (h : usb_dev_handle) (interface : Int)
  | usb_claim_interface (h : usb_dev_handle) (interface : Int)
  | usb_set_configuration (h : usb_dev_handle) (configuration : Int)
  | usb_release_interface (h : usb_dev_handle) (interface : Int)
  | usb_close (h : usb_dev_handle)
  | handle_read (h : usb_dev_handle)
  | sys_chdir (path : String)
  | sys_opendir (path : String)
  | sys_open (path : String)
  | sys_read (path : String)
  | sys_write (path : String) (bytes : String)
  | usb_control_msg (h : usb_dev_handle) (requesttype request value index : Nat)
      (bytes : List Nat) (size : Int) (timeout : Nat)
  | stdout (text : String)
  | stderr (text : String)
  deriving DecidableEq, Repr

/-- Everything outside `atvtool.c` that its behaviour depends on. -/
structure Env where
  /-- The global `usb_busses` list as left by `usb_find_busses`/`usb_find_devices`. -/
  usb_busses : List usb_bus
  /-- The result of `usb_open` on a device (`none` is NULL). -/
  usb_open : usb_device → Option usb_dev_handle
  /-- The return value of a `usb_control_msg` call, which may depend on the whole
  history up to and including that call (the last event of the argument). -/
  usb_control_msg : List Event → Int
  /-- The `VERSION` macro, defined by the build and not by the source file. -/
  VERSION : String
  /-- The width of C `long` on the platform (`int` is 32 bits). -/
  long_bits : Nat
  /-- What reading `dev->bus->dirname` and `dev->device->devnum` yields through a
  handle that `usb_close` has already been called on (libusb-0.1 frees it):
  `none` if the access faults, otherwise whatever is found in that memory. -/
  stale_read : usb_dev_handle → Option (String × Nat)
  /-- The return value of `chdir`. -/
  sys_chdir : String → Int
  /-- The entries `readdir` yields after `opendir`, in order (`none`: `opendir` fails). -/
  sys_opendir : String → Option (List String)
  /-- Whether `open` succeeds on a path. -/
  sys_open : String → Bool
  /-- The bytes `read` delivers from the file at a path (`none`: `read` fails). -/
  sys_read : String → Option String
  /-- The return value of `write` to the file at a path. -/
  sys_write : String → String → Int

/-- The process state: the function-static `ir` of `get_ir` and the trace of
interactions so far, oldest first. -/
structure World where
  ir : Option usb_dev_handle
  trace : List Event
  deriving DecidableEq, Repr

/-- The state in which `main` starts. -/
def World.start : World := ⟨none, []⟩

/-- The outcome of running a piece of the program: it returns a value, or the
process has called `exit`, or the process was killed by a signal. -/
inductive Res (α : Type) where
  | ok (a : α) (w : World)
  | exit (status : Int) (w : World)
  | killed (signal : Nat) (w : World)
  deriving DecidableEq, Repr

/-- The world in which a run ended. -/
def Res.world {α : Type} : Res α → World
  | .ok _ w => w
  | .exit _ w => w
  | .killed _ w => w

/-- A piece of the program. -/
def Proc (α : Type) : Type := World → Res α

def Proc.pure {α : Type} (a : α) : Proc α := fun w => .ok a w

/-- Sequencing: once the process has ended nothing else runs. -/
def Proc.bind {α β : Type} (m : Proc α) (f : α → Proc β) : Proc β := fun w =>
  match m w with
  | .ok a w1 => f a w1
  | .exit s w1 => .exit s w1
  | .killed s w1 => .killed s w1

instance : Monad Proc where
  pure := Proc.pure
  bind := Proc.bind

/-- Perform one interaction: append it to the trace. -/
def emit (e : Event) : Proc Unit := fun w => .ok () { w with trace := w.trace ++ [e] }

/-- The C library's `exit`. -/
def exit {α : Type} (status : Int) : Proc α := fun w => .exit status w

/-- Assignment to the function-static `ir` of `get_ir`. -/
def set_ir (ir : usb_dev_handle) : Proc Unit := fun w => .ok () { w with ir := some ir }

/-! ## The functions of the source -/

/-- Source `find_ir`: the outer loop walks the busses, the inner loop the devices
of a bus; the first device with the Apple IR ids is opened. -/
def find_ir_dev : List usb_bus → Option usb_device
  | [] => none
  | bus :: rest =>
    match bus.devices.find? (fun dev => dev.idVendor == VENDOR_APPLE && dev.idProduct == PRODUCT_IR) with
    | some dev => some dev
    | none => find_ir_dev rest

def find_ir (E : Env) : Proc (Option usb_dev_handle) :=
  match find_ir_dev E.usb_busses with
  | some dev => do
    emit (.usb_open dev)
    return E.usb_open dev
  | none => return none

def get_ir (E : Env) : Proc usb_dev_handle := fun w =>
  match w.ir with
  | some ir => .ok ir w
  | none =>
    (do
      emit .usb_init
      emit .usb_find_busses
      emit .usb_find_devices
      let r ← find_ir E
      match r with
      | none =>
        emit (.stderr "IR receiver not found, quitting\n")
        exit 1
      | some ir =>
        set_ir ir
        emit (.usb_detach_kernel_driver_np ir 0)
        emit (.usb_claim_interface ir 0)
        emit (.usb_set_configuration ir 1)
        return ir) w

/-- C `isspace` in the "C" locale: space, and `\t \n \v \f \r` (codes 9 to 13). -/
def isspace (c : Char) : Bool := c.toNat = 32 || (9 ≤ c.toNat && c.toNat ≤ 13)

/-- The value of a character as a digit: `0`-`9`, then letters of either case from 10. -/
def digit_value (c : Char) : Option Nat :=
  let n := c.toNat
  if 48 ≤ n ∧ n ≤ 57 then some (n - 48)
  else if 97 ≤ n ∧ n ≤ 122 then some (n - 97 + 10)
  else if 65 ≤ n ∧ n ≤ 90 then some (n - 65 + 10)
  else none

/-- Consume the longest run of digits of the base: the accumulated value, the
number of digits consumed, and what is left. -/
def scan_digits (base : Nat) : List Char → Nat → Nat → Nat × Nat × List Char
  | [], acc, n => (acc, n, [])
  | c :: cs, acc, n =>
    match digit_value c with
    | some d => if d < base then scan_digits base cs (acc * base + d) (n + 1) else (acc, n, c :: cs)
    | none => (acc, n, c :: cs)

/-- Conversion of a `long` to the 32-bit `int` it is assigned to. -/
def to_int (v : Int) : Int := (v + 2 ^ 31) % 2 ^ 32 - 2 ^ 31

/-- The C library's `atoi` (not part of the repository): white space, an
optional sign and the longest run of decimal digits, as an `int`. -/
def atoi (nptr : List Char) : Int :=
  let s := nptr.dropWhile isspace
  let signed : Bool × List Char :=
    match s with
    | c :: t => if c = '-' then (true, t) else if c = '+' then (false, t) else (false, s)
    | [] => (false, s)
  let r := scan_digits 10 signed.2 0 0
  to_int (if signed.1 then -(r.1 : Int) else (r.1 : Int))

/-- The reads of `dev->bus->dirname` and `dev->device->devnum` at the start of
`usb_make_kernel_name`.  Through a handle that is still open they give the
fields of the handle; through one `usb_close` has been called on they are
reads of released memory, and the environment decides what happens. -/
def handle_fields (E : Env) (dev : usb_dev_handle) : Proc (String × Nat) := fun w =>
  if Event.usb_close dev ∈ w.trace then
    match E.stale_read dev with
    | some v => .ok v { w with trace := w.trace ++ [.handle_read dev] }
    | none => .killed SIGSEGV { w with trace := w.trace ++ [.handle_read dev] }
  else .ok (dev.bus.dirname, dev.device.devnum) { w with trace := w.trace ++ [.handle_read dev] }

/-- The `while ((ent = readdir(dir)))` loop of the source `usb_make_kernel_name`
over the directory entries still to come: `some name` is the result 0 with
`name` filled in, `none` the result -1.  `closedir` and `close` are not
recorded. -/
def readdir_loop (E : Env) (busstr devstr : String) (interface : Int) (namelen : Nat) :
    List String → Proc (Option String)
  | [] => pure none
  | d_name :: rest =>
    if d_name.data.take busstr.length ≠ busstr.data then
      readdir_loop E busstr devstr interface namelen rest
    else do
      let buf := d_name ++ "/devnum"
      emit (.sys_open buf)
      if E.sys_open buf = false then
        readdir_loop E busstr devstr interface namelen rest
      else do
        emit (.sys_read buf)
        match E.sys_read buf with
        | some bytes =>
          if bytes.length = devstr.length ∧
              bytes.data.take devstr.length = devstr.data.take devstr.length then
            let name := d_name ++ ":" ++ toString (1 : Int) ++ "." ++ toString interface
            if name.length ≥ namelen then pure none else pure (some name)
          else readdir_loop E busstr devstr interface namelen rest
        | none => readdir_loop E busstr devstr interface namelen rest

/-- Source `usb_make_kernel_name`: `some name` is the result 0 with `name` filled
in, `none` the result -1.  `busstr` and `devstr` are the strings `sprintf`
writes (`"%d-"` of `atoi(dev->bus->dirname)` and `"%d\n"` of
`dev->device->devnum`), taken to fit their ten-byte buffers; lengths are counted
in characters, which are bytes for the ASCII names of sysfs. -/
def usb_make_kernel_name (E : Env) (dev : usb_dev_handle) (interface : Int) (namelen : Nat) :
    Proc (Option String) := do
  let fields ← handle_fields E dev
  let busstr := toString (atoi fields.1.data) ++ "-"
  let devstr := toString fields.2 ++ "\n"
  emit (.sys_chdir "/sys/bus/usb/devices")
  if E.sys_chdir "/sys/bus/usb/devices" ≠ 0 then
    pure none
  else do
    emit (.sys_opendir ".")
    match E.sys_opendir "." with
    | none => pure none
    | some entries => readdir_loop E busstr devstr interface namelen entries

/-- Source `usb_attach_kernel_driver_np`; `dev` and `driver` may be NULL. -/
def usb_attach_kernel_driver_np (E : Env) (dev : Option usb_dev_handle) (interface : Int)
    (driver : Option String) : Proc Int :=
  match dev, driver with
  | some dev, some driver =>
    if interface < 0 then
      pure (-1)
    else do
      let r ← usb_make_kernel_name E dev interface PATH_MAX
      match r with
      | some name => do
        let buf := "/sys/bus/usb/drivers/" ++ driver ++ "/bind"
        let len : Int := name.length
        emit (.sys_open buf)
        if E.sys_open buf = false then
          pure (-1)
        else do
          emit (.sys_write buf name)
          let ret := E.sys_write buf name
          if ret ≠ len then pure (-1) else pure 0
      | none => pure (-1)
  | _, _ => pure (-1)

/-- Source `reattach`.  `get_ir` never returns NULL, so the `if (ir)` branch is
always taken. -/
def reattach (E : Env) : Proc Unit := do
  let ir ← get_ir E
  emit (.usb_release_interface ir 0)
  emit (.usb_close ir)
  let _ ← usb_attach_kernel_driver_np E (some ir) 0 (some "usbhid")

/-- The call `usb_control_msg(dev, requesttype, request, value, index, bytes, size, timeout)`:
the call is recorded and the environment supplies its return value. -/
def usb_control_msg (E : Env) (dev : usb_dev_handle) (requesttype request value index : Nat)
    (bytes : List Nat) (size : Int) (timeout : Nat) : Proc Int := fun w =>
  let tr := w.trace ++ [Event.usb_control_msg dev requesttype request value index bytes size timeout]
  .ok (E.usb_control_msg tr) { w with trace := tr }

/-- Source `set_report`: `data` is the first `len` bytes of the caller's buffer.
`val` is computed before `get_ir()` is evaluated as an argument. -/
def set_report (E : Env) (data : List Nat) (len : Int) : Proc Int := do
  let type := data.headD 0
  let val := 0x300 ||| type
  let ir ← get_ir E
  let r ← usb_control_msg E ir (USB_ENDPOINT_OUT ||| USB_TYPE_CLASS ||| USB_RECIP_INTERFACE)
    9 val 0 data len 1000
  return (if r ≠ len then 1 else 0)

/-- Source `set_fan`. -/
def set_fan (E : Env) (full : Int) : Proc Unit := do
  let buf : List Nat := [0xf, if full ≠ 0 then 1 else 0]
  let _ ← set_report E buf 2

/-- Source `set_led`.  `buf` is the five-byte buffer; `set_report(buf, 3)` sends
its first three bytes.  `buf[1] = mode` stores `mode` as an `unsigned char`. -/
def set_led (E : Env) (mode : Int) : Proc Unit := do
  let buf : List Nat := [0, 0, 0, 0, 0]
  let buf := (buf.set 0 0xd).set 1 (mode % 256).toNat
  if mode = LEDMODE_OFF then
    let _ ← set_report E buf 5
    let buf := buf.set 1 3
    let _ ← set_report E (buf.take 3) 3
    let buf := buf.set 1 4
    let _ ← set_report E (buf.take 3) 3
  else if mode = LEDMODE_AMBER then
    let _ ← set_report E buf 5
    let buf := (buf.set 1 3).set 2 1
    let _ ← set_report E (buf.take 3) 3
    let buf := (buf.set 1 4).set 2 0
    let _ ← set_report E (buf.take 3) 3
  else if mode = LEDMODE_AMBER_BLINK then
    let _ ← set_report E buf 5
    let buf := buf.set 1 3
    let _ ← set_report E (buf.take 3) 3
    let buf := buf.set 1 4
    let _ ← set_report E (buf.take 3) 3
    let buf := (buf.set 1 3).set 2 2
    let _ ← set_report E (buf.take 3) 3
  else if mode = LEDMODE_WHITE then
    let _ ← set_report E buf 5
    let _ ← set_report E (buf.take 3) 3
    let buf := (buf.set 1 4).set 2 1
    let _ ← set_report E (buf.take 3) 3
  else if mode = LEDMODE_WHITE_BLINK then
    let _ ← set_report E buf 5
    let buf := buf.set 1 3
    let _ ← set_report E (buf.take 3) 3
    let buf := buf.set 1 4
    let _ ← set_report E (buf.take 3) 3
    let buf := (buf.set 1 4).set 2 2
    let _ ← set_report E (buf.take 3) 3
  else if mode = LEDMODE_BOTH then
    let buf := buf.set 1 7
    let _ ← set_report E buf 5
    let buf := (buf.set 1 6).set 2 1
    let _ ← set_report E (buf.take 3) 3
  else
    return ()

/-- Source `set_led_brightness`. -/
def set_led_brightness (E : Env) (high : Int) : Proc Unit := do
  let buf : List Nat := [0, 0, 0, 0, 0]
  let buf := buf.set 0 0xd
  if high ≠ 0 then
    let buf := buf.set 1 6
    let _ ← set_report E buf 5
    let buf := (buf.set 1 5).set 2 1
    let _ ← set_report E (buf.take 3) 3
  else
    let buf := buf.set 1 5
    let _ ← set_report E buf 5
    let _ ← set_report E (buf.take 3) 3

/-- The text printed by the source `usage`. -/
def usage_text : String :=
  "usage: atvtool [OPTION] ...\n" ++
  "  -h, --help\t\tshow usage info\n" ++
  "  -v, --version\t\tshow version info\n" ++
  "  -r, --reattach\treattach kernel driver to IR device\n" ++
  "  -f, --fan-off\t\tturn fan off\n" ++
  "  -F, --fan-on\t\tturn fan on\n" ++
  "  -b, --brightness-low\tuse low led brightness\n" ++
  "  -B, --brightness-high\tuse high led brightness\n" ++
  "  -l, --led\t\tset led mode to one of:\n" ++
  "\t\t\t  0\toff\n" ++
  "\t\t\t  1\tamber\n" ++
  "\t\t\t  2\tamber blink\n" ++
  "\t\t\t  3\twhite\n" ++
  "\t\t\t  4\twhite blink\n" ++
  "\t\t\t  5\tboth blink\n"

/-- Source `usage`. -/
def usage : Proc Unit := emit (.stderr usage_text)

/-! ## The C library's `strtol`

`strtol` is not part of the repository; this is its behaviour under ISO C
(7.20.1.4) in the "C" locale, for base 0, on a NUL-terminated string given as
the list of its characters.  The result is the value and the rest of the string
that `endptr` is left pointing to. -/

/-- `LONG_MIN`/`LONG_MAX` saturation of an out-of-range result. -/
def clamp_long (long_bits : Nat) (v : Int) : Int :=
  if v > 2 ^ (long_bits - 1) - 1 then 2 ^ (long_bits - 1) - 1
  else if v < -(2 ^ (long_bits - 1)) then -(2 ^ (long_bits - 1))
  else v

/-- The call `strtol(nptr, &endp, 0)`: skip white space, take an optional sign,
choose the base from the prefix (`0x`/`0X` hexadecimal, `0` octal, otherwise
decimal), convert the longest run of digits.  With no digits no conversion is
performed: the value is 0 and `endp` is `nptr`; for `0x` without a hexadecimal
digit after it only the `0` is converted and `endp` points to the `x`. -/
def strtol (long_bits : Nat) (nptr : List Char) : Int × List Char :=
  let s := nptr.dropWhile isspace
  let signed : Bool × List Char :=
    match s with
    | c :: t => if c = '-' then (true, t) else if c = '+' then (false, t) else (false, s)
    | [] => (false, s)
  let neg := signed.1
  let s := signed.2
  let hex : Bool :=
    match s with
    | z :: x :: _ => z = '0' && (x = 'x' || x = 'X')
    | _ => false
  let base : Nat := if hex then 16 else if s.head? = some '0' then 8 else 10
  let body := if hex then s.drop 2 else s
  let r := scan_digits base body 0 0
  if r.2.1 = 0 then
    if hex then (0, s.drop 1) else (0, nptr)
  else
    (clamp_long long_bits (if neg then -(r.1 : Int) else (r.1 : Int)), r.2.2)

/-! ## `main` -/

/-- The code of a character constant. -/
def chr (c : Char) : Int := c.toNat

/-- One iteration of the `do ... while (c != -1)` loop body of the source `main`
for a value `c` returned by `getopt_long`, with `optarg` as it left it. -/
def main_switch (E : Env) (c : Int) (optarg : String) : Proc Unit :=
  if c = chr 'v' then do
    emit (.stdout ("atvtool version " ++ E.VERSION ++ ", (C) 2008 " ++
      "Peter Korsgaard <jacmet@sunsite.dk>\n"))
    exit 0
  else if c = chr 'r' then
    reattach E
  else if c = chr 'f' ∨ c = chr 'F' then
    set_fan E (if c = chr 'F' then 1 else 0)
  else if c = chr 'b' ∨ c = chr 'B' then
    set_led_brightness E (if c = chr 'B' then 1 else 0)
  else if c = chr 'l' then do
    let r := strtol E.long_bits optarg.data
    let val := to_int r.1
    let endp := r.2
    if endp ≠ [] ∨ val > LEDMODE_MAX ∨ val < 0 then
      emit (.stderr ("invalid led mode \x27" ++ optarg ++ "\x27\n"))
      usage
      exit 1
    set_led E val
  else if c = -1 then
    return ()
  else
    usage

/-- The loop of the source `main`.  `getopt` is the sequence of results of the
successive `getopt_long` calls, each with the `optarg` it sets; when the
sequence is used up `getopt_long` returns -1. -/
def main_loop (E : Env) : List (Int × String) → Proc Int
  | [] => return 0
  | (c, optarg) :: rest => do
    main_switch E c optarg
    if c ≠ -1 then main_loop E rest else return 0

/-- Source `main`. -/
def main (E : Env) (argc : Nat) (getopt : List (Int × String)) : Proc Int :=
  if argc = 1 then do
    usage
    return 0
  else
    main_loop E getopt

/-! ## Reading a trace -/

/-- The control transfer `set_report` issues on handle `h` for a payload. -/
def report_event (h : usb_dev_handle) (p : List Nat × Int) : Event :=
  .usb_control_msg h 0x21 9 (0x300 ||| p.1.headD 0) 0 p.1 p.2 1000

/-- A sequence of `set_report` calls whose results are ignored. -/
def run_reports (E : Env) : List (List Nat × Int) → Proc Unit
  | [] => pure ()
  | p :: rest => do
    let _ ← set_report E p.1 p.2
    run_reports E rest

/-- The payloads and lengths `set_fan` passes to `set_report`. -/
def fan_reports (full : Int) : List (List Nat × Int) :=
  [([0xf, if full ≠ 0 then 1 else 0], 2)]

/-- The payloads and lengths `set_led_brightness` passes to `set_report`. -/
def brightness_reports (high : Int) : List (List Nat × Int) :=
  if high ≠ 0 then [([0xd, 6, 0, 0, 0], 5), ([0xd, 5, 1], 3)]
  else [([0xd, 5, 0, 0, 0], 5), ([0xd, 5, 0], 3)]

/-- The payloads and lengths `set_led` passes to `set_report`. -/
def led_reports (mode : Int) : List (List Nat × Int) :=
  if mode = 0 then [([0xd, 0, 0, 0, 0], 5), ([0xd, 3, 0], 3), ([0xd, 4, 0], 3)]
  else if mode = 1 then [([0xd, 1, 0, 0, 0], 5), ([0xd, 3, 1], 3), ([0xd, 4, 0], 3)]
  else if mode = 2 then [([0xd, 2, 0, 0, 0], 5), ([0xd, 3, 0], 3), ([0xd, 4, 0], 3), ([0xd, 3, 2], 3)]
  else if mode = 3 then [([0xd, 3, 0, 0, 0], 5), ([0xd, 3, 0], 3), ([0xd, 4, 1], 3)]
  else if mode = 4 then [([0xd, 4, 0, 0, 0], 5), ([0xd, 3, 0], 3), ([0xd, 4, 0], 3), ([0xd, 4, 2], 3)]
  else if mode = 5 then [([0xd, 7, 0, 0, 0], 5), ([0xd, 6, 1], 3)]
  else []

/-- The table of the LED modes: the payloads of the transfers of each mode, in order. -/
def spec_led_table (mode : Int) : List (List Nat) :=
  if mode = 0 then [[0x0d, 0x00, 0x00, 0x00, 0x00], [0x0d, 0x03, 0x00], [0x0d, 0x04, 0x00]]
  else if mode = 1 then [[0x0d, 0x01, 0x00, 0x00, 0x00], [0x0d, 0x03, 0x01], [0x0d, 0x04, 0x00]]
  else if mode = 2 then
    [[0x0d, 0x02, 0x00, 0x00, 0x00], [0x0d, 0x03, 0x00], [0x0d, 0x04, 0x00], [0x0d, 0x03, 0x02]]
  else if mode = 3 then [[0x0d, 0x03, 0x00, 0x00, 0x00], [0x0d, 0x03, 0x00], [0x0d, 0x04, 0x01]]
  else if mode = 4 then
    [[0x0d, 0x04, 0x00, 0x00, 0x00], [0x0d, 0x03, 0x00], [0x0d, 0x04, 0x00], [0x0d, 0x04, 0x02]]
  else if mode = 5 then [[0x0d, 0x07, 0x00, 0x00, 0x00], [0x0d, 0x06, 0x01]]
  else []

/-- The payload and the size argument of each control transfer of a trace, in order. -/
def ctl_payloads (tr : List Event) : List (List Nat × Int) :=
  tr.filterMap (fun e =>
    match e with
    | .usb_control_msg _ _ _ _ _ bytes size _ => some (bytes, size)
    | _ => none)

/-- Output on `stdout` or `stderr`. -/
def is_print : Event → Bool
  | .stdout _ => true
  | .stderr _ => true
  | _ => false

/-- The size argument is the length of the payload, which is 2, 3 or 5. -/
def size_2_3_5 (p : List Nat × Int) : Prop :=
  p.2 = (p.1.length : Nat) ∧ (p.1.length = 2 ∨ p.1.length = 3 ∨ p.1.length = 5)

instance (p : List Nat × Int) : Decidable (size_2_3_5 p) := by
  unfold size_2_3_5; infer_instance

/-- A result meets `I` if the program goes on and `Q` if the process has ended. -/
def Res.sat {α : Type} (I Q : World → Prop) : Res α → Prop
  | .ok _ w => I w
  | .exit _ w => Q w
  | .killed _ w => Q w

/-- The devices of all busses, bus after bus, each bus in the order of its device list. -/
def all_devices : List usb_bus → List usb_device
  | [] => []
  | bus :: rest => bus.devices ++ all_devices rest

/-- The events of `get_ir` when the receiver is not on any bus. -/
def not_found_events : List Event :=
  [.usb_init, .usb_find_busses, .usb_find_devices, .stderr "IR receiver not found, quitting\n"]

/-- The operations by which the device is located and opened. -/
def is_open_op : Event → Bool
  | .usb_init => true
  | .usb_find_busses => true
  | .usb_find_devices => true
  | .usb_open _ => true
  | .usb_detach_kernel_driver_np _ _ => true
  | .usb_claim_interface _ _ => true
  | .usb_set_configuration _ _ => true
  | _ => false

/-- The locate-and-open operations of a trace, in order. -/
def open_ops (tr : List Event) : List Event := tr.filter is_open_op

/-- The handle an operation is performed on, if it takes one. -/
def handle_of : Event → Option usb_dev_handle
  | .usb_detach_kernel_driver_np h _ => some h
  | .usb_claim_interface h _ => some h
  | .usb_set_configuration h _ => some h
  | .usb_release_interface h _ => some h
  | .usb_close h => some h
  | .handle_read h => some h
  | .usb_control_msg h _ _ _ _ _ _ _ => some h
  | _ => none

/-- The handles of the operations of a trace, in order. -/
def handles (tr : List Event) : List usb_dev_handle := tr.filterMap handle_of

/-- What the first successful `get_ir` does, on device `dev` opened as `h`. -/
def open_events (dev : usb_device) (h : usb_dev_handle) : List Event :=
  [.usb_init, .usb_find_busses, .usb_find_devices, .usb_open dev,
   .usb_detach_kernel_driver_np h 0, .usb_claim_interface h 0, .usb_set_configuration h 1]

/-- What `reattach` does with the handle before the attach step. -/
def release_close (h : usb_dev_handle) : List Event :=
  [.usb_release_interface h 0, .usb_close h]

/-- What the attach step may do: read through the handle `h`, and file-system calls. -/
def is_attach_op (h : usb_dev_handle) : Event → Bool
  | .handle_read h1 => h1 = h
  | .sys_chdir _ => true
  | .sys_opendir _ => true
  | .sys_open _ => true
  | .sys_read _ => true
  | .sys_write _ _ => true
  | _ => false

/-- A piece of the program only adds events with property `P` to the trace and
leaves the static handle as it is. -/
def Adds {α : Type} (P : Event → Prop) (m : Proc α) : Prop :=
  ∀ w, ∃ evs, (m w).world = ⟨w.ir, w.trace ++ evs⟩ ∧ ∀ e ∈ evs, P e

/-- While the program runs: either the handle is unset and nothing has been
opened, or it is set and was opened once, every operation being on it. -/
def once_inv (w : World) : Prop :=
  (w.ir = none ∧ open_ops w.trace = [] ∧ handles w.trace = []) ∨
  (∃ dev h, w.ir = some h ∧ open_ops w.trace = open_events dev h ∧ ∀ x ∈ handles w.trace, x = h)

/-- At the end of a run: the locate-and-open operations were performed at most
once, in order (stopping where the device was not found or not opened), and
all operations that take a handle took the same one. -/
def once_end (w : World) : Prop :=
  (open_ops w.trace = [] ∨
   open_ops w.trace = [.usb_init, .usb_find_busses, .usb_find_devices] ∨
   (∃ dev, open_ops w.trace = [.usb_init, .usb_find_busses, .usb_find_devices, .usb_open dev]) ∨
   (∃ dev h, open_ops w.trace = open_events dev h)) ∧
  (∀ x ∈ handles w.trace, ∀ y ∈ handles w.trace, x = y)

/-- The operations of a trace that are performed on a handle `usb_close` has
already been called on; `closed` holds the handles closed so far. -/
def ops_on_closed_from (closed : List usb_dev_handle) : List Event → List Event
  | [] => []
  | e :: es =>
    (match handle_of e with
      | some h => if h ∈ closed then [e] else []
      | none => []) ++
    ops_on_closed_from (match e with
      | .usb_close h => h :: closed
      | _ => closed) es

/-- The operations of a trace performed on a closed handle. -/
def ops_on_closed (tr : List Event) : List Event := ops_on_closed_from [] tr

/-! ## A sample environment -/

/-- An Apple IR receiver as device 3 of its bus. -/
def sample_device : usb_device := ⟨0x05ac, 0x8241, 3⟩

/-- The second bus of the sample machine, with the receiver as its second device. -/
def sample_bus : usb_bus := ⟨"002", [⟨0x1d6b, 0x0001, 1⟩, sample_device]⟩

def sample_handle : usb_dev_handle := ⟨7, sample_bus, sample_device⟩

/-- Two busses, the receiver second on the second bus; `usb_open` succeeds and
every control transfer fails with -1; a read through a closed handle faults;
sysfs lists the receiver as `2-1`. -/
def sample_env : Env where
  usb_busses := [⟨"001", [⟨0x1d6b, 0x0002, 1⟩]⟩, sample_bus]
  usb_open := fun dev => some ⟨7, sample_bus, dev⟩
  usb_control_msg := fun _ => -1
  VERSION := "1.0"
  long_bits := 64
  stale_read := fun _ => none
  sys_chdir := fun _ => 0
  sys_opendir := fun _ => some ["usb1", "usb2", "2-1"]
  sys_open := fun _ => true
  sys_read := fun _ => some "3\n"
  sys_write := fun _ bytes => bytes.length

/-- The same machine where the memory of a closed handle still holds its fields. -/
def sample_env_stale : Env :=
  { sample_env with stale_read := fun h => some (h.bus.dirname, h.device.devnum) }

/-- The same machine without the receiver. -/
def sample_env_absent : Env :=
  { sample_env with usb_busses := [⟨"001", [⟨0x1d6b, 0x0002, 1⟩]⟩, ⟨"002", []⟩] }

/-- The world once `get_ir` has opened the receiver of `sample_env`. -/
def sample_opened : World :=
  ⟨some sample_handle, [.usb_init, .usb_find_busses, .usb_find_devices, .usb_open sample_device,
    .usb_detach_kernel_driver_np sample_handle 0, .usb_claim_interface sample_handle 0,
    .usb_set_configuration sample_handle 1]⟩

/-! ## Basic facts -/

theorem bind_apply {α β : Type} (m : Proc α) (f : α → Proc β) (w : World) :
    (m >>= f) w = match m w with
      | .ok a w1 => f a w1
      | .exit s w1 => .exit s w1
      | .killed s w1 => .killed s w1 := rfl

theorem pure_apply {α : Type} (a : α) (w : World) : (pure a : Proc α) w = .ok a w := rfl

theorem get_ir_cached (E : Env) (w : World) (h : usb_dev_handle) (hw : w.ir = some h) :
    get_ir E w = .ok h w := by
  unfold get_ir
  rw [hw]

theorem get_ir_not_found (E : Env) (w : World) (hw : w.ir = none)
    (hf : find_ir_dev E.usb_busses = none) :
    get_ir E w = .exit 1 ⟨none, w.trace ++ [.usb_init, .usb_find_busses, .usb_find_devices,
      .stderr "IR receiver not found, quitting\n"]⟩ := by
  unfold get_ir
  rw [hw]
  simp [bind_apply, pure_apply, emit, find_ir, hf, exit, hw]

theorem get_ir_open_failed (E : Env) (w : World) (dev : usb_device) (hw : w.ir = none)
    (hf : find_ir_dev E.usb_busses = some dev) (ho : E.usb_open dev = none) :
    get_ir E w = .exit 1 ⟨none, w.trace ++ [.usb_init, .usb_find_busses, .usb_find_devices,
      .usb_open dev, .stderr "IR receiver not found, quitting\n"]⟩ := by
  unfold get_ir
  rw [hw]
  simp [bind_apply, pure_apply, emit, find_ir, hf, ho, exit, hw]

theorem get_ir_opened (E : Env) (w : World) (dev : usb_device) (h : usb_dev_handle)
    (hw : w.ir = none) (hf : find_ir_dev E.usb_busses = some dev) (ho : E.usb_open dev = some h) :
    get_ir E w = .ok h ⟨some h, w.trace ++ [.usb_init, .usb_find_busses, .usb_find_devices,
      .usb_open dev, .usb_detach_kernel_driver_np h 0, .usb_claim_interface h 0,
      .usb_set_configuration h 1]⟩ := by
  unfold get_ir
  rw [hw]
  simp [bind_apply, pure_apply, emit, find_ir, hf, ho, set_ir]

theorem get_ir_ok_ir (E : Env) (w w1 : World) (h : usb_dev_handle)
    (hg : get_ir E w = .ok h w1) : w1.ir = some h := by
  cases hw : w.ir with
  | some h0 =>
    rw [get_ir_cached E w h0 hw] at hg
    cases hg
    exact hw
  | none =>
    cases hf : find_ir_dev E.usb_busses with
    | none => rw [get_ir_not_found E w hw hf] at hg; cases hg
    | some dev =>
      cases ho : E.usb_open dev with
      | none => rw [get_ir_open_failed E w dev hw hf ho] at hg; cases hg
      | some h0 => rw [get_ir_opened E w dev h0 hw hf ho] at hg; cases hg; rfl

theorem get_ir_result (E : Env) (w : World) :
    (∃ h w1, get_ir E w = .ok h w1) ∨ (∃ w1, get_ir E w = .exit 1 w1) := by
  cases hw : w.ir with
  | some h0 => exact Or.inl ⟨h0, w, get_ir_cached E w h0 hw⟩
  | none =>
    cases hf : find_ir_dev E.usb_busses with
    | none => exact Or.inr ⟨_, get_ir_not_found E w hw hf⟩
    | some dev =>
      cases ho : E.usb_open dev with
      | none => exact Or.inr ⟨_, get_ir_open_failed E w dev hw hf ho⟩
      | some h0 => exact Or.inl ⟨h0, _, get_ir_opened E w dev h0 hw hf ho⟩

theorem set_report_ok (E : Env) (w w1 : World) (h : usb_dev_handle) (data : List Nat) (len : Int)
    (hg : get_ir E w = .ok h w1) :
    set_report E data len w =
      .ok (if E.usb_control_msg (w1.trace ++ [report_event h (data, len)]) ≠ len then 1 else 0)
        ⟨some h, w1.trace ++ [report_event h (data, len)]⟩ := by
  have hi := get_ir_ok_ir E w w1 h hg
  simp [set_report, bind_apply, pure_apply, hg, usb_control_msg, report_event, hi,
    USB_ENDPOINT_OUT, USB_TYPE_CLASS, USB_RECIP_INTERFACE]

theorem set_report_exit (E : Env) (w w1 : World) (s : Int) (data : List Nat) (len : Int)
    (hg : get_ir E w = .exit s w1) : set_report E data len w = .exit s w1 := by
  simp [set_report, bind_apply, hg]

theorem run_reports_cached (E : Env) (h : usb_dev_handle) (L : List (List Nat × Int)) :
    ∀ tr : List Event, run_reports E L ⟨some h, tr⟩ = .ok () ⟨some h, tr ++ L.map (report_event h)⟩ := by
  induction L with
  | nil => intro tr; simp [run_reports, pure_apply]
  | cons p rest ih =>
    intro tr
    have hg : get_ir E ⟨some h, tr⟩ = .ok h ⟨some h, tr⟩ := get_ir_cached E _ h rfl
    simp [run_reports, bind_apply, set_report_ok E _ _ h p.1 p.2 hg, ih]

theorem run_reports_ok (E : Env) (w w1 : World) (h : usb_dev_handle) (L : List (List Nat × Int))
    (hL : L ≠ []) (hg : get_ir E w = .ok h w1) :
    run_reports E L w = .ok () ⟨some h, w1.trace ++ L.map (report_event h)⟩ := by
  cases L with
  | nil => exact absurd rfl hL
  | cons p rest =>
    simp [run_reports, bind_apply, set_report_ok E w w1 h p.1 p.2 hg, run_reports_cached]

theorem run_reports_exit (E : Env) (w w1 : World) (s : Int) (L : List (List Nat × Int))
    (hL : L ≠ []) (hg : get_ir E w = .exit s w1) : run_reports E L w = .exit s w1 := by
  cases L with
  | nil => exact absurd rfl hL
  | cons p rest => simp [run_reports, bind_apply, set_report_exit E w w1 s p.1 p.2 hg]

theorem set_fan_eq (E : Env) (full : Int) : set_fan E full = run_reports E (fan_reports full) := by
  rfl

theorem set_led_brightness_eq (E : Env) (high : Int) :
    set_led_brightness E high = run_reports E (brightness_reports high) := by
  unfold set_led_brightness brightness_reports
  split_ifs <;> rfl

theorem set_led_eq (E : Env) (mode : Int) : set_led E mode = run_reports E (led_reports mode) := by
  unfold set_led led_reports
  simp only [LEDMODE_OFF, LEDMODE_AMBER, LEDMODE_AMBER_BLINK, LEDMODE_WHITE, LEDMODE_WHITE_BLINK,
    LEDMODE_BOTH]
  split_ifs with h0 h1 h2 h3 h4 h5
  · subst h0; rfl
  · subst h1; rfl
  · subst h2; rfl
  · subst h3; rfl
  · subst h4; rfl
  · subst h5; rfl
  · rfl

theorem get_ir_env (E : Env) (f : List Event → Int) :
    get_ir { E with usb_control_msg := f } = get_ir E := rfl

theorem run_reports_env (E : Env) (f : List Event → Int) (L : List (List Nat × Int)) :
    run_reports { E with usb_control_msg := f } L = run_reports E L := by
  funext w
  cases L with
  | nil => rfl
  | cons p rest =>
    rcases get_ir_result E w with ⟨h, w1, hg⟩ | ⟨w1, hg⟩
    · rw [run_reports_ok E w w1 h _ (List.cons_ne_nil _ _) hg,
        run_reports_ok _ w w1 h _ (List.cons_ne_nil _ _) (by rw [get_ir_env]; exact hg)]
    · rw [run_reports_exit E w w1 1 _ (List.cons_ne_nil _ _) hg,
        run_reports_exit _ w w1 1 _ (List.cons_ne_nil _ _) (by rw [get_ir_env]; exact hg)]

/-! ## The LED table (C2) -/

/-- C2: for a mode in 0..5, once the handle is available (`get_ir` returns it),
`set_led` performs exactly the control transfers of the table, in order, each
with its payload sent whole, and nothing else; the result is the same whatever
the transfers return; for a mode outside 0..5 `set_led` does nothing at all. -/
theorem set_led_emits_table (E : Env) (w : World) (mode : Int) :
    (∀ h w1, get_ir E w = .ok h w1 → 0 ≤ mode → mode ≤ 5 →
      set_led E mode w = .ok () ⟨some h, w1.trace ++
        (spec_led_table mode).map (fun d => report_event h (d, d.length))⟩) ∧
    (∀ f, set_led { E with usb_control_msg := f } mode w = set_led E mode w) ∧
    (mode < 0 ∨ 5 < mode → set_led E mode w = .ok () w) := by
  refine ⟨?_, ?_, ?_⟩
  · intro h w1 hg h0 h5
    have hm : mode = 0 ∨ mode = 1 ∨ mode = 2 ∨ mode = 3 ∨ mode = 4 ∨ mode = 5 := by omega
    rw [set_led_eq]
    rcases hm with hm | hm | hm | hm | hm | hm <;> subst hm <;>
      rw [run_reports_ok E w w1 h _ (by decide) hg] <;> rfl
  · intro f
    rw [set_led_eq, set_led_eq, run_reports_env]
  · intro hm
    rw [set_led_eq]
    have : led_reports mode = [] := by
      unfold led_reports
      rw [if_neg (by omega), if_neg (by omega), if_neg (by omega), if_neg (by omega),
        if_neg (by omega), if_neg (by omega)]
    rw [this]
    rfl

theorem set_led_emits_table_witness :
    (get_ir sample_env World.start = .ok sample_handle sample_opened ∧ (0 : Int) ≤ 3 ∧ (3 : Int) ≤ 5) ∧
    set_led sample_env 3 World.start = .ok () ⟨some sample_handle, sample_opened.trace ++
      [report_event sample_handle ([0xd, 3, 0, 0, 0], 5), report_event sample_handle ([0xd, 3, 0], 3),
       report_event sample_handle ([0xd, 4, 1], 3)]⟩ :=
  ⟨⟨rfl, by decide, by decide⟩,
   (set_led_emits_table sample_env World.start 3).1 sample_handle sample_opened rfl
     (by decide) (by decide)⟩

/-! ## The parameters of a transfer (C6) -/

/-- C6: for a non-empty payload `b :: rest` of bytes, once the handle is
available, `set_report` issues one control transfer with request type
`USB_ENDPOINT_OUT | USB_TYPE_CLASS | USB_RECIP_INTERFACE` = 0x21, request 9,
value `0x300 | b` (low byte `b`, high byte 3), index 0, the payload unchanged
with its length, timeout 1000; it returns 0 when the transfer returns that
length and 1 otherwise. -/
theorem set_report_transfer (E : Env) (w w1 : World) (h : usb_dev_handle) (b : Nat)
    (rest : List Nat) (hb : b < 256) (hg : get_ir E w = .ok h w1) :
    set_report E (b :: rest) ((b :: rest).length : Nat) w =
      .ok (if E.usb_control_msg (w1.trace ++ [Event.usb_control_msg h 0x21 9 (0x300 ||| b) 0
              (b :: rest) ((b :: rest).length : Nat) 1000]) = ((b :: rest).length : Nat) then 0 else 1)
        ⟨some h, w1.trace ++ [Event.usb_control_msg h 0x21 9 (0x300 ||| b) 0
              (b :: rest) ((b :: rest).length : Nat) 1000]⟩ ∧
    (0x300 ||| b) % 256 = b ∧ (0x300 ||| b) / 256 = 3 ∧
    USB_ENDPOINT_OUT ||| USB_TYPE_CLASS ||| USB_RECIP_INTERFACE = 0x21 := by
  refine ⟨?_, ?_, ?_, by decide⟩
  · rw [set_report_ok E w w1 h _ _ hg]
    simp [report_event]
  · revert b
    set_option maxRecDepth 100000 in decide
  · revert b
    set_option maxRecDepth 100000 in decide

theorem set_report_transfer_witness :
    ((0xd : Nat) < 256 ∧ get_ir sample_env World.start = .ok sample_handle sample_opened) ∧
    set_report sample_env [0xd, 3, 1] 3 World.start =
      .ok 1 ⟨some sample_handle, sample_opened.trace ++
        [Event.usb_control_msg sample_handle 0x21 9 0x30d 0 [0xd, 3, 1] 3 1000]⟩ :=
  ⟨⟨by decide, rfl⟩,
   (set_report_transfer sample_env World.start sample_opened sample_handle 0xd [3, 1]
     (by decide) rfl).1⟩

/-! ## Fan and brightness (C8, C9) -/

/-- C8: `-F` calls `set_fan` with 1 and `-f` with 0; for every `full`, once the
handle is available, `set_fan` issues exactly one control transfer, of the two
bytes 0x0f and (1 if `full` is nonzero, else 0), with value 0x30f. -/
theorem set_fan_payload (E : Env) (optarg : String) (w : World) (full : Int) :
    main_switch E (chr 'F') optarg = set_fan E 1 ∧
    main_switch E (chr 'f') optarg = set_fan E 0 ∧
    (∀ h w1, get_ir E w = .ok h w1 →
      set_fan E full w = .ok () ⟨some h, w1.trace ++
        [Event.usb_control_msg h 0x21 9 0x30f 0 [0x0f, if full ≠ 0 then 1 else 0] 2 1000]⟩) := by
  refine ⟨by simp [main_switch, chr], by simp [main_switch, chr], ?_⟩
  intro h w1 hg
  rw [set_fan_eq, run_reports_ok E w w1 h _ (by simp [fan_reports]) hg]
  simp [fan_reports, report_event]

theorem set_fan_payload_witness :
    get_ir sample_env World.start = .ok sample_handle sample_opened ∧
    set_fan sample_env 1 World.start = .ok () ⟨some sample_handle, sample_opened.trace ++
        [Event.usb_control_msg sample_handle 0x21 9 0x30f 0 [0x0f, 1] 2 1000]⟩ :=
  ⟨rfl, (set_fan_payload sample_env "" World.start 1).2.2 sample_handle sample_opened rfl⟩

/-- C9: `-B` calls `set_led_brightness` with 1 and `-b` with 0; once the handle
is available, for nonzero `high` it issues exactly `0d 06 00 00 00` then
`0d 05 01`, and for `high = 0` exactly `0d 05 00 00 00` then `0d 05 00`: two
transfers, of 5 and of 3 bytes. -/
theorem set_led_brightness_payloads (E : Env) (optarg : String) (w : World) (high : Int) :
    main_switch E (chr 'B') optarg = set_led_brightness E 1 ∧
    main_switch E (chr 'b') optarg = set_led_brightness E 0 ∧
    (∀ h w1, get_ir E w = .ok h w1 →
      (high ≠ 0 → set_led_brightness E high w = .ok () ⟨some h, w1.trace ++
        [Event.usb_control_msg h 0x21 9 0x30d 0 [0x0d, 0x06, 0x00, 0x00, 0x00] 5 1000,
         Event.usb_control_msg h 0x21 9 0x30d 0 [0x0d, 0x05, 0x01] 3 1000]⟩) ∧
      (high = 0 → set_led_brightness E high w = .ok () ⟨some h, w1.trace ++
        [Event.usb_control_msg h 0x21 9 0x30d 0 [0x0d, 0x05, 0x00, 0x00, 0x00] 5 1000,
         Event.usb_control_msg h 0x21 9 0x30d 0 [0x0d, 0x05, 0x00] 3 1000]⟩)) := by
  refine ⟨by simp [main_switch, chr], by simp [main_switch, chr], ?_⟩
  intro h w1 hg
  constructor
  · intro hh
    rw [set_led_brightness_eq, run_reports_ok E w w1 h _ (by simp [brightness_reports, hh]) hg]
    simp [brightness_reports, hh, report_event]
  · intro hh
    rw [set_led_brightness_eq, run_reports_ok E w w1 h _ (by simp [brightness_reports, hh]) hg]
    simp [brightness_reports, hh, report_event]

theorem set_led_brightness_payloads_witness :
    (get_ir sample_env World.start = .ok sample_handle sample_opened ∧ (1 : Int) ≠ 0) ∧
    set_led_brightness sample_env 1 World.start = .ok () ⟨some sample_handle, sample_opened.trace ++
        [Event.usb_control_msg sample_handle 0x21 9 0x30d 0 [0x0d, 0x06, 0x00, 0x00, 0x00] 5 1000,
         Event.usb_control_msg sample_handle 0x21 9 0x30d 0 [0x0d, 0x05, 0x01] 3 1000]⟩ :=
  ⟨⟨rfl, by decide⟩,
   ((set_led_brightness_payloads sample_env "" World.start 1).2.2 sample_handle sample_opened
     rfl).1 (by decide)⟩

/-! ## Summaries of the commands -/

theorem adds_pure {α : Type} (P : Event → Prop) (a : α) : Adds P (pure a : Proc α) :=
  fun w => ⟨[], by simp [pure_apply, Res.world], by simp⟩

theorem adds_emit (P : Event → Prop) (e : Event) (he : P e) : Adds P (emit e) :=
  fun w => ⟨[e], rfl, by simpa using he⟩

theorem adds_bind {α β : Type} (P : Event → Prop) (m : Proc α) (f : α → Proc β)
    (hm : Adds P m) (hf : ∀ a, Adds P (f a)) : Adds P (m >>= f) := by
  intro w
  obtain ⟨e1, h1, p1⟩ := hm w
  rw [bind_apply]
  cases hr : m w with
  | ok a w1 =>
    rw [hr] at h1
    simp only [Res.world] at h1
    subst h1
    obtain ⟨e2, h2, p2⟩ := hf a ⟨w.ir, w.trace ++ e1⟩
    refine ⟨e1 ++ e2, ?_, ?_⟩
    · simpa [List.append_assoc] using h2
    · intro e he
      rcases List.mem_append.mp he with he | he
      · exact p1 e he
      · exact p2 e he
  | exit st w1 =>
    rw [hr] at h1
    exact ⟨e1, h1, p1⟩
  | killed sg w1 =>
    rw [hr] at h1
    exact ⟨e1, h1, p1⟩

theorem adds_handle_fields (E : Env) (h : usb_dev_handle) :
    Adds (fun e => is_attach_op h e = true) (handle_fields E h) := by
  intro w
  refine ⟨[.handle_read h], ?_, by simp [is_attach_op]⟩
  unfold handle_fields
  split_ifs
  · cases E.stale_read h <;> rfl
  · rfl

theorem adds_readdir_loop (E : Env) (h : usb_dev_handle) (busstr devstr : String)
    (interface : Int) (namelen : Nat) (entries : List String) :
    Adds (fun e => is_attach_op h e = true)
      (readdir_loop E busstr devstr interface namelen entries) := by
  induction entries with
  | nil => exact adds_pure _ _
  | cons d rest ih =>
    unfold readdir_loop
    split
    · exact ih
    · refine adds_bind _ _ _ (adds_emit _ _ rfl) (fun _ => ?_)
      split
      · exact ih
      · refine adds_bind _ _ _ (adds_emit _ _ rfl) (fun _ => ?_)
        split
        · split
          · dsimp only
            split <;> exact adds_pure _ _
          · exact ih
        · exact ih

theorem adds_usb_make_kernel_name (E : Env) (h : usb_dev_handle) (interface : Int)
    (namelen : Nat) :
    Adds (fun e => is_attach_op h e = true) (usb_make_kernel_name E h interface namelen) := by
  unfold usb_make_kernel_name
  refine adds_bind _ _ _ (adds_handle_fields E h) (fun fields => ?_)
  refine adds_bind _ _ _ (adds_emit _ _ rfl) (fun _ => ?_)
  split
  · exact adds_pure _ _
  · refine adds_bind _ _ _ (adds_emit _ _ rfl) (fun _ => ?_)
    split
    · exact adds_pure _ _
    · exact adds_readdir_loop E h _ _ _ _ _

theorem adds_usb_attach_kernel_driver_np (E : Env) (h : usb_dev_handle) (interface : Int)
    (driver : String) :
    Adds (fun e => is_attach_op h e = true)
      (usb_attach_kernel_driver_np E (some h) interface (some driver)) := by
  unfold usb_attach_kernel_driver_np
  dsimp only
  split
  · exact adds_pure _ _
  · refine adds_bind _ _ _ (adds_usb_make_kernel_name E h _ _) (fun r => ?_)
    cases r with
    | none => exact adds_pure _ _
    | some name =>
      dsimp only
      refine adds_bind _ _ _ (adds_emit _ _ rfl) (fun _ => ?_)
      split
      · exact adds_pure _ _
      · refine adds_bind _ _ _ (adds_emit _ _ rfl) (fun _ => ?_)
        split <;> exact adds_pure _ _

/-- What `reattach` does once `get_ir` has returned the handle: release, close,
and then the attach step, which starts by reading through the handle. -/
theorem reattach_ok (E : Env) (w w1 : World) (h : usb_dev_handle) (hg : get_ir E w = .ok h w1) :
    ∃ evs, (reattach E w).world = ⟨some h, w1.trace ++ release_close h ++ evs⟩ ∧
      ∀ e ∈ evs, is_attach_op h e = true := by
  have hi := get_ir_ok_ir E w w1 h hg
  obtain ⟨evs, hev, hp⟩ := adds_usb_attach_kernel_driver_np E h 0 "usbhid"
    ⟨some h, w1.trace ++ release_close h⟩
  refine ⟨evs, ?_, hp⟩
  simp only [reattach, bind_apply, hg, emit, hi]
  simp only [release_close, List.append_assoc, List.cons_append, List.nil_append] at hev ⊢
  cases hr : usb_attach_kernel_driver_np E (some h) 0 (some "usbhid")
      ⟨some h, w1.trace ++ [.usb_release_interface h 0, .usb_close h]⟩ with
  | ok a w2 => rw [hr] at hev; simpa [pure_apply, Res.world] using hev
  | exit st w2 => rw [hr] at hev; simpa [Res.world] using hev
  | killed sg w2 => rw [hr] at hev; simpa [Res.world] using hev

theorem reattach_exit (E : Env) (w w1 : World) (s : Int) (hg : get_ir E w = .exit s w1) :
    reattach E w = .exit s w1 := by
  simp [reattach, bind_apply, hg]

/-- What `get_ir` does, by cases: the handle is cached; or the device is not
found or cannot be opened and the process exits; or it is opened now. -/
theorem get_ir_summary (E : Env) (w : World) :
    (∃ h, w.ir = some h ∧ get_ir E w = .ok h w) ∨
    (w.ir = none ∧ find_ir_dev E.usb_busses = none ∧
      get_ir E w = .exit 1 ⟨none, w.trace ++ [.usb_init, .usb_find_busses, .usb_find_devices,
        .stderr "IR receiver not found, quitting\n"]⟩) ∨
    (∃ dev, w.ir = none ∧ find_ir_dev E.usb_busses = some dev ∧ E.usb_open dev = none ∧
      get_ir E w = .exit 1 ⟨none, w.trace ++ [.usb_init, .usb_find_busses, .usb_find_devices,
        .usb_open dev, .stderr "IR receiver not found, quitting\n"]⟩) ∨
    (∃ dev h, w.ir = none ∧ find_ir_dev E.usb_busses = some dev ∧ E.usb_open dev = some h ∧
      get_ir E w = .ok h ⟨some h, w.trace ++ [.usb_init, .usb_find_busses, .usb_find_devices,
        .usb_open dev, .usb_detach_kernel_driver_np h 0, .usb_claim_interface h 0,
        .usb_set_configuration h 1]⟩) := by
  cases hw : w.ir with
  | some h0 => exact Or.inl ⟨h0, rfl, get_ir_cached E w h0 hw⟩
  | none =>
    cases hf : find_ir_dev E.usb_busses with
    | none => exact Or.inr (Or.inl ⟨rfl, rfl, get_ir_not_found E w hw hf⟩)
    | some dev =>
      cases ho : E.usb_open dev with
      | none => exact Or.inr (Or.inr (Or.inl ⟨dev, rfl, rfl, ho, get_ir_open_failed E w dev hw hf ho⟩))
      | some h0 =>
        exact Or.inr (Or.inr (Or.inr ⟨dev, h0, rfl, rfl, ho, get_ir_opened E w dev h0 hw hf ho⟩))

theorem led_reports_valid (v : Int) (h0 : 0 ≤ v) (h5 : v ≤ 5) :
    led_reports v ≠ [] ∧ ∀ p ∈ led_reports v, size_2_3_5 p := by
  have hm : v = 0 ∨ v = 1 ∨ v = 2 ∨ v = 3 ∨ v = 4 ∨ v = 5 := by omega
  rcases hm with hm | hm | hm | hm | hm | hm <;> subst hm <;> decide

/-- What one iteration of the loop of `main` does, by cases: `reattach`; or a
non-empty sequence of `set_report` calls with payloads of 2, 3 or 5 bytes; or
nothing but output. -/
theorem main_switch_summary (E : Env) (c : Int) (optarg : String) :
    (c = chr 'r' ∧ main_switch E c optarg = reattach E) ∨
    (c ≠ chr 'r' ∧ ∃ L, L ≠ [] ∧ (∀ p ∈ L, size_2_3_5 p) ∧ main_switch E c optarg = run_reports E L) ∨
    (c ≠ chr 'r' ∧ ∃ evs, (∀ e ∈ evs, is_print e = true) ∧
      ∀ w, (main_switch E c optarg w).world = ⟨w.ir, w.trace ++ evs⟩) := by
  have e1 : chr 'v' = 118 := rfl
  have e2 : chr 'r' = 114 := rfl
  have e3 : chr 'f' = 102 := rfl
  have e4 : chr 'F' = 70 := rfl
  have e5 : chr 'b' = 98 := rfl
  have e6 : chr 'B' = 66 := rfl
  have e7 : chr 'l' = 108 := rfl
  unfold main_switch
  simp only [e1, e2, e3, e4, e5, e6, e7]
  by_cases hv : c = 118
  · refine Or.inr (Or.inr ⟨by omega, [.stdout ("atvtool version " ++ E.VERSION ++
      ", (C) 2008 " ++ "Peter Korsgaard <jacmet@sunsite.dk>\n")], by simp [is_print], ?_⟩)
    intro w
    simp [hv, bind_apply, emit, exit, Res.world]
  by_cases hr : c = 114
  · exact Or.inl ⟨hr, by simp [hr]⟩
  by_cases hf : c = 102 ∨ c = 70
  · refine Or.inr (Or.inl ⟨hr, fan_reports (if c = 70 then 1 else 0), by simp [fan_reports],
      by intro p hp; simp [fan_reports] at hp; subst hp; simp [size_2_3_5], ?_⟩)
    simp only [hv, hr, hf, if_true, if_false, set_fan_eq]
  by_cases hb : c = 98 ∨ c = 66
  · refine Or.inr (Or.inl ⟨hr, brightness_reports (if c = 66 then 1 else 0),
      by unfold brightness_reports; split_ifs <;> simp,
      by unfold brightness_reports; split_ifs <;> decide, ?_⟩)
    simp only [hv, hr, hf, hb, if_true, if_false, set_led_brightness_eq]
  by_cases hl : c = 108
  · by_cases hbad : (strtol E.long_bits optarg.data).2 ≠ [] ∨
        to_int (strtol E.long_bits optarg.data).1 > LEDMODE_MAX ∨
        to_int (strtol E.long_bits optarg.data).1 < 0
    · refine Or.inr (Or.inr ⟨hr, [.stderr ("invalid led mode \x27" ++ optarg ++ "\x27\n"),
        .stderr usage_text], by simp [is_print], ?_⟩)
      intro w
      simp only [hv, hr, hf, hb, hl, if_true, if_false, hbad]
      simp [bind_apply, emit, usage, exit, Res.world]
    · have hval : 0 ≤ to_int (strtol E.long_bits optarg.data).1 ∧
          to_int (strtol E.long_bits optarg.data).1 ≤ 5 := by
        simp only [LEDMODE_MAX] at hbad
        omega
      obtain ⟨hne, hgood⟩ := led_reports_valid _ hval.1 hval.2
      refine Or.inr (Or.inl ⟨hr, led_reports (to_int (strtol E.long_bits optarg.data).1), hne,
        hgood, ?_⟩)
      funext w
      simp only [hv, hr, hf, hb, hl, if_true, if_false, hbad]
      simp [bind_apply, pure_apply, set_led_eq]
  by_cases he : c = -1
  · refine Or.inr (Or.inr ⟨hr, [], by simp, ?_⟩)
    intro w
    simp only [hv, hr, hf, hb, hl, he, if_true, if_false]
    simp [pure_apply, Res.world]
  · refine Or.inr (Or.inr ⟨hr, [.stderr usage_text], by simp [is_print], ?_⟩)
    intro w
    simp only [hv, hr, hf, hb, hl, he, if_true, if_false]
    simp [usage, emit, Res.world]

/-! ## Invariants of a run -/

theorem main_loop_nil (E : Env) (w : World) : main_loop E [] w = .ok 0 w := rfl

theorem main_loop_cons (E : Env) (c : Int) (optarg : String) (rest : List (Int × String))
    (w : World) :
    main_loop E ((c, optarg) :: rest) w =
      match main_switch E c optarg w with
      | .ok _ w1 => if c ≠ -1 then main_loop E rest w1 else .ok 0 w1
      | .exit s w1 => .exit s w1
      | .killed s w1 => .killed s w1 := by
  simp only [main_loop, bind_apply]
  cases main_switch E c optarg w with
  | ok a w1 => by_cases hc : c = -1 <;> simp [hc, pure_apply]
  | exit s w1 => rfl
  | killed s w1 => rfl

/-- A property `I` kept by every iteration that goes on, with `Q` holding
whenever an iteration exits and whenever `I` does, gives `Q` at the end of the
loop. -/
theorem main_loop_inv (E : Env) (I Q : World → Prop) (hfin : ∀ w, I w → Q w)
    (hstep : ∀ c optarg w, I w → (main_switch E c optarg w).sat I Q) :
    ∀ (getopt : List (Int × String)) (w : World), I w → Q (main_loop E getopt w).world := by
  intro getopt
  induction getopt with
  | nil => intro w hw; exact hfin w hw
  | cons o rest ih =>
    intro w hw
    obtain ⟨c, optarg⟩ := o
    rw [main_loop_cons]
    have hs := hstep c optarg w hw
    cases hm : main_switch E c optarg w with
    | ok a w1 =>
      rw [hm] at hs
      by_cases hc : c = -1
      · simp only [hc, ne_eq, not_true_eq_false, if_false]
        exact hfin w1 hs
      · simp only [hc, ne_eq, not_false_eq_true, if_true]
        exact ih w1 hs
    | exit st w1 =>
      rw [hm] at hs
      exact hs
    | killed sg w1 =>
      rw [hm] at hs
      exact hs

/-- The same for `main`, which prints the usage text when `argc` is 1. -/
theorem main_inv (E : Env) (I Q : World → Prop) (hfin : ∀ w, I w → Q w)
    (husage : ∀ w, I w → I ⟨w.ir, w.trace ++ [.stderr usage_text]⟩)
    (hstep : ∀ c optarg w, I w → (main_switch E c optarg w).sat I Q)
    (argc : Nat) (getopt : List (Int × String)) (w : World) (hw : I w) :
    Q (main E argc getopt w).world := by
  unfold main
  by_cases h1 : argc = 1
  · simp only [h1, if_true]
    exact hfin _ (husage w hw)
  · simp only [h1, if_false]
    exact main_loop_inv E I Q hfin hstep getopt w hw

theorem ctl_payloads_append (a b : List Event) :
    ctl_payloads (a ++ b) = ctl_payloads a ++ ctl_payloads b := by
  simp [ctl_payloads]

theorem ctl_payloads_prints (evs : List Event) (h : ∀ e ∈ evs, is_print e = true) :
    ctl_payloads evs = [] := by
  induction evs with
  | nil => rfl
  | cons e rest ih =>
    have he := h e (List.mem_cons_self _ _)
    have hr := ih (fun x hx => h x (List.mem_cons_of_mem _ hx))
    cases e
    case stdout t => simpa [ctl_payloads] using hr
    case stderr t => simpa [ctl_payloads] using hr
    all_goals exact absurd he (by simp [is_print])

theorem ctl_payloads_reports (h : usb_dev_handle) (L : List (List Nat × Int)) :
    ctl_payloads (L.map (report_event h)) = L := by
  induction L with
  | nil => rfl
  | cons p rest ih =>
    simp only [ctl_payloads] at ih
    simp [ctl_payloads, report_event, ih]

theorem get_ir_ctl_payloads (E : Env) (w : World) :
    ctl_payloads (get_ir E w).world.trace = ctl_payloads w.trace := by
  rcases get_ir_summary E w with ⟨h, _, hg⟩ | ⟨_, _, hg⟩ | ⟨dev, _, _, _, hg⟩ | ⟨dev, h, _, _, _, hg⟩ <;>
    rw [hg] <;> simp [Res.world, ctl_payloads]

theorem sat_same {α : Type} (I : World → Prop) (r : Res α) : r.sat I I ↔ I r.world := by
  cases r <;> rfl

theorem sat_of_world {α : Type} (I Q : World → Prop) (hfin : ∀ w, I w → Q w) (r : Res α)
    (h : I r.world) : r.sat I Q := by
  cases r with
  | ok a w => exact h
  | exit st w => exact hfin w h
  | killed sg w => exact hfin w h

theorem ctl_payloads_attach (h : usb_dev_handle) (evs : List Event)
    (hp : ∀ e ∈ evs, is_attach_op h e = true) : ctl_payloads evs = [] := by
  induction evs with
  | nil => rfl
  | cons e rest ih =>
    have he := hp e (List.mem_cons_self _ _)
    have hr := ih (fun x hx => hp x (List.mem_cons_of_mem _ hx))
    simp only [ctl_payloads] at hr
    cases e <;> first
      | (simpa [ctl_payloads] using hr)
      | (simp [is_attach_op] at he)

theorem reattach_ctl_payloads (E : Env) (w : World) :
    ctl_payloads (reattach E w).world.trace = ctl_payloads w.trace := by
  have hc := get_ir_ctl_payloads E w
  rcases get_ir_result E w with ⟨h, w1, hg⟩ | ⟨w1, hg⟩
  · rw [hg] at hc
    obtain ⟨evs, hev, hp⟩ := reattach_ok E w w1 h hg
    rw [hev]
    simp only [Res.world] at hc ⊢
    rw [ctl_payloads_append, ctl_payloads_append, hc, ctl_payloads_attach h evs hp]
    simp [ctl_payloads, release_close]
  · rw [hg] at hc
    rw [reattach_exit E w w1 1 hg]
    exact hc

theorem run_reports_ctl_payloads (E : Env) (w : World) (L : List (List Nat × Int)) :
    ∃ X, (X = [] ∨ X = L) ∧
      ctl_payloads (run_reports E L w).world.trace = ctl_payloads w.trace ++ X := by
  cases L with
  | nil => exact ⟨[], Or.inl rfl, by simp [run_reports, pure_apply, Res.world]⟩
  | cons p rest =>
    have hc := get_ir_ctl_payloads E w
    rcases get_ir_result E w with ⟨h, w1, hg⟩ | ⟨w1, hg⟩
    · rw [hg] at hc
      refine ⟨p :: rest, Or.inr rfl, ?_⟩
      rw [run_reports_ok E w w1 h _ (List.cons_ne_nil _ _) hg]
      simp only [Res.world] at hc ⊢
      rw [ctl_payloads_append, hc, ctl_payloads_reports]
    · rw [hg] at hc
      refine ⟨[], Or.inl rfl, ?_⟩
      rw [run_reports_exit E w w1 1 _ (List.cons_ne_nil _ _) hg]
      simpa using hc

theorem main_switch_ctl_payloads (E : Env) (c : Int) (optarg : String) (w : World) :
    ∃ X, (∀ p ∈ X, size_2_3_5 p) ∧
      ctl_payloads (main_switch E c optarg w).world.trace = ctl_payloads w.trace ++ X := by
  rcases main_switch_summary E c optarg with ⟨_, hm⟩ | ⟨_, L, _, hL, hm⟩ | ⟨_, evs, hp, hm⟩
  · exact ⟨[], by simp, by rw [hm, reattach_ctl_payloads]; simp⟩
  · obtain ⟨X, hX, hc⟩ := run_reports_ctl_payloads E w L
    refine ⟨X, ?_, by rw [hm, hc]⟩
    rcases hX with hX | hX <;> subst hX
    · simp
    · exact hL
  · refine ⟨[], by simp, ?_⟩
    rw [hm w]
    simp [ctl_payloads_append, ctl_payloads_prints evs hp]

/-! ## Payload sizes (C5) -/

/-- C5, as stated, fails: the one control transfer of `atvtool -F` carries a
payload of 2 bytes, which is neither 3 nor 5. -/
theorem fan_payload_not_3_or_5 :
    ¬ ∀ p ∈ ctl_payloads (main sample_env 2 [(chr 'F', "")] World.start).world.trace,
        p.1.length = 3 ∨ p.1.length = 5 := by
  decide

/-- C5, amended: every control transfer of every run carries a payload of 2, 3
or 5 bytes, the size argument being that length; the transfers `set_fan` adds
have 2 bytes, those `set_led_brightness` and `set_led` add have 3 or 5. -/
theorem control_payload_sizes (E : Env) (argc : Nat) (getopt : List (Int × String)) (w : World)
    (v : Int) :
    (∀ p ∈ ctl_payloads (main E argc getopt World.start).world.trace,
      p.2 = (p.1.length : Nat) ∧ (p.1.length = 2 ∨ p.1.length = 3 ∨ p.1.length = 5)) ∧
    (∃ X, ctl_payloads (set_fan E v w).world.trace = ctl_payloads w.trace ++ X ∧
      ∀ p ∈ X, p.2 = 2 ∧ p.1.length = 2) ∧
    (∃ X, ctl_payloads (set_led_brightness E v w).world.trace = ctl_payloads w.trace ++ X ∧
      ∀ p ∈ X, p.2 = (p.1.length : Nat) ∧ (p.1.length = 3 ∨ p.1.length = 5)) ∧
    (∃ X, ctl_payloads (set_led E v w).world.trace = ctl_payloads w.trace ++ X ∧
      ∀ p ∈ X, p.2 = (p.1.length : Nat) ∧ (p.1.length = 3 ∨ p.1.length = 5)) := by
  refine ⟨?_, ?_, ?_, ?_⟩
  · refine main_inv E (fun w => ∀ p ∈ ctl_payloads w.trace, size_2_3_5 p) _ (fun _ h => h) ?_ ?_
      argc getopt World.start (by simp [World.start, ctl_payloads])
    · intro w hw
      simpa [ctl_payloads_append, ctl_payloads] using hw
    · intro c optarg w hw
      rw [sat_same]
      obtain ⟨X, hX, hc⟩ := main_switch_ctl_payloads E c optarg w
      rw [hc]
      intro p hp
      rcases List.mem_append.mp hp with hp | hp
      · exact hw p hp
      · exact hX p hp
  · obtain ⟨X, hX, hc⟩ := run_reports_ctl_payloads E w (fan_reports v)
    refine ⟨X, by rw [set_fan_eq, hc], ?_⟩
    rcases hX with hX | hX <;> subst hX
    · simp
    · intro p hp
      simp only [fan_reports, List.mem_singleton] at hp
      subst hp
      simp
  · obtain ⟨X, hX, hc⟩ := run_reports_ctl_payloads E w (brightness_reports v)
    refine ⟨X, by rw [set_led_brightness_eq, hc], ?_⟩
    rcases hX with hX | hX <;> subst hX
    · simp
    · unfold brightness_reports
      split_ifs <;> decide
  · obtain ⟨X, hX, hc⟩ := run_reports_ctl_payloads E w (led_reports v)
    refine ⟨X, by rw [set_led_eq, hc], ?_⟩
    rcases hX with hX | hX <;> subst hX
    · simp
    · unfold led_reports
      split_ifs <;> decide

/-! ## Failed transfers (C3) -/

theorem readdir_loop_env (E : Env) (f : List Event → Int) (busstr devstr : String)
    (interface : Int) (namelen : Nat) (entries : List String) :
    readdir_loop { E with usb_control_msg := f } busstr devstr interface namelen entries =
      readdir_loop E busstr devstr interface namelen entries := by
  induction entries with
  | nil => rfl
  | cons d rest ih =>
    unfold readdir_loop
    rw [ih]

theorem reattach_env (E : Env) (f : List Event → Int) :
    reattach { E with usb_control_msg := f } = reattach E := by
  unfold reattach usb_attach_kernel_driver_np usb_make_kernel_name
  simp only [readdir_loop_env]
  rfl

theorem main_switch_env (E : Env) (f : List Event → Int) (c : Int) (optarg : String) :
    main_switch { E with usb_control_msg := f } c optarg = main_switch E c optarg := by
  simp only [main_switch, set_fan_eq, set_led_brightness_eq, set_led_eq, run_reports_env,
    reattach_env]

theorem main_loop_env (E : Env) (f : List Event → Int) (getopt : List (Int × String)) :
    main_loop { E with usb_control_msg := f } getopt = main_loop E getopt := by
  induction getopt with
  | nil => rfl
  | cons o rest ih =>
    obtain ⟨c, optarg⟩ := o
    funext w
    rw [main_loop_cons, main_loop_cons, main_switch_env, ih]

/-- C3, as stated, fails: with every control transfer failing (returning -1),
`atvtool -B -F` still issues all three transfers, prints nothing and returns 0. -/
theorem failed_transfer_goes_on :
    sample_env.usb_control_msg (sample_opened.trace ++
      [Event.usb_control_msg sample_handle 0x21 9 0x30d 0 [0x0d, 0x06, 0x00, 0x00, 0x00] 5 1000]) ≠ 5 ∧
    main sample_env 3 [(chr 'B', ""), (chr 'F', "")] World.start =
      .ok 0 ⟨some sample_handle, sample_opened.trace ++
        [Event.usb_control_msg sample_handle 0x21 9 0x30d 0 [0x0d, 0x06, 0x00, 0x00, 0x00] 5 1000,
         Event.usb_control_msg sample_handle 0x21 9 0x30d 0 [0x0d, 0x05, 0x01] 3 1000,
         Event.usb_control_msg sample_handle 0x21 9 0x30f 0 [0x0f, 0x01] 2 1000]⟩ := by
  constructor
  · decide
  · rfl

/-- C3, amended: what the control transfers return has no effect on a run; the
operations performed, the messages printed and the exit status are the same
whatever the outcome of each transfer. -/
theorem transfer_outcome_ignored (E : Env) (f : List Event → Int) (argc : Nat)
    (getopt : List (Int × String)) (v : Int) :
    main { E with usb_control_msg := f } argc getopt = main E argc getopt ∧
    set_fan { E with usb_control_msg := f } v = set_fan E v ∧
    set_led_brightness { E with usb_control_msg := f } v = set_led_brightness E v ∧
    set_led { E with usb_control_msg := f } v = set_led E v := by
  refine ⟨?_, ?_, ?_, ?_⟩
  · unfold main
    rw [main_loop_env]
  · rw [set_fan_eq, set_fan_eq, run_reports_env]
  · rw [set_led_brightness_eq, set_led_brightness_eq, run_reports_env]
  · rw [set_led_eq, set_led_eq, run_reports_env]

/-! ## The argument of `-l` (C1) -/

/-- C1: for the empty argument (`atvtool -l ""`), which is not an integer, `main`
calls `set_led` with 0; on the sample machine the three transfers of mode 0 are
issued and `main` returns 0. -/
theorem led_empty_argument (E : Env) :
    main_switch E (chr 'l') "" = set_led E 0 ∧
    main sample_env 3 [(chr 'l', "")] World.start =
      .ok 0 ⟨some sample_handle, sample_opened.trace ++
        [Event.usb_control_msg sample_handle 0x21 9 0x30d 0 [0x0d, 0x00, 0x00, 0x00, 0x00] 5 1000,
         Event.usb_control_msg sample_handle 0x21 9 0x30d 0 [0x0d, 0x03, 0x00] 3 1000,
         Event.usb_control_msg sample_handle 0x21 9 0x30d 0 [0x0d, 0x04, 0x00] 3 1000]⟩ := by
  constructor
  · funext w
    have hs : strtol E.long_bits "".data = (0, []) := rfl
    have ht : to_int 0 = 0 := by decide
    simp [main_switch, chr, hs, ht, LEDMODE_MAX, bind_apply, pure_apply]
  · rfl

/-! ## Finding the receiver (C4) -/

theorem find_ir_dev_eq (bs : List usb_bus) :
    find_ir_dev bs = (all_devices bs).find?
      (fun dev => dev.idVendor == VENDOR_APPLE && dev.idProduct == PRODUCT_IR) := by
  induction bs with
  | nil => rfl
  | cons b rest ih =>
    simp only [find_ir_dev, all_devices, List.find?_append]
    cases hb : b.devices.find?
        (fun dev => dev.idVendor == VENDOR_APPLE && dev.idProduct == PRODUCT_IR) with
    | none => simpa using ih
    | some d => simp

theorem mem_all_devices (bs : List usb_bus) (x : usb_device) :
    x ∈ all_devices bs ↔ ∃ b ∈ bs, x ∈ b.devices := by
  induction bs with
  | nil => simp [all_devices]
  | cons b rest ih => simp [all_devices, ih]

theorem find_ir_dev_none (bs : List usb_bus)
    (h : ∀ bus ∈ bs, ∀ dev ∈ bus.devices, ¬ (dev.idVendor = 0x05ac ∧ dev.idProduct = 0x8241)) :
    find_ir_dev bs = none := by
  rw [find_ir_dev_eq, List.find?_eq_none]
  intro x hx
  obtain ⟨b, hb, hxb⟩ := (mem_all_devices bs x).mp hx
  have := h b hb x hxb
  simpa [VENDOR_APPLE, PRODUCT_IR] using this

theorem find_ir_dev_first (bs : List usb_bus) (front back : List usb_device) (d : usb_device)
    (hsplit : all_devices bs = front ++ d :: back)
    (hd : d.idVendor = 0x05ac ∧ d.idProduct = 0x8241)
    (hfront : ∀ x ∈ front, ¬ (x.idVendor = 0x05ac ∧ x.idProduct = 0x8241)) :
    find_ir_dev bs = some d := by
  rw [find_ir_dev_eq, hsplit]
  clear hsplit
  induction front with
  | nil => simp [List.find?_cons, VENDOR_APPLE, PRODUCT_IR, hd.1, hd.2]
  | cons x rest ih =>
    have hx := hfront x (List.mem_cons_self _ _)
    have hx2 : (x.idVendor == VENDOR_APPLE && x.idProduct == PRODUCT_IR) = false := by
      simpa [VENDOR_APPLE, PRODUCT_IR] using hx
    simp only [List.cons_append, List.find?_cons, hx2]
    exact ih (fun y hy => hfront y (List.mem_cons_of_mem _ hy))

/-- The loop invariant principle with the property of the end stated on the
result, exit status included. -/
theorem main_loop_inv_res (E : Env) (I : World → Prop) (Q : Res Int → Prop)
    (hfin : ∀ w, I w → Q (.ok 0 w))
    (hstep : ∀ c optarg w, I w →
      match main_switch E c optarg w with
      | .ok _ w1 => I w1
      | .exit st w1 => Q (.exit st w1)
      | .killed sg w1 => Q (.killed sg w1)) :
    ∀ (getopt : List (Int × String)) (w : World), I w → Q (main_loop E getopt w) := by
  intro getopt
  induction getopt with
  | nil => intro w hw; exact hfin w hw
  | cons o rest ih =>
    intro w hw
    obtain ⟨c, optarg⟩ := o
    rw [main_loop_cons]
    have hs := hstep c optarg w hw
    cases hm : main_switch E c optarg w with
    | ok a w1 =>
      rw [hm] at hs
      by_cases hc : c = -1
      · simp only [hc, ne_eq, not_true_eq_false, if_false]
        exact hfin w1 hs
      · simp only [hc, ne_eq, not_false_eq_true, if_true]
        exact ih w1 hs
    | exit st w1 =>
      rw [hm] at hs
      exact hs
    | killed sg w1 =>
      rw [hm] at hs
      exact hs

theorem main_inv_res (E : Env) (I : World → Prop) (Q : Res Int → Prop)
    (hfin : ∀ w, I w → Q (.ok 0 w))
    (husage : ∀ w, I w → I ⟨w.ir, w.trace ++ [.stderr usage_text]⟩)
    (hstep : ∀ c optarg w, I w →
      match main_switch E c optarg w with
      | .ok _ w1 => I w1
      | .exit st w1 => Q (.exit st w1)
      | .killed sg w1 => Q (.killed sg w1))
    (argc : Nat) (getopt : List (Int × String)) (w : World) (hw : I w) :
    Q (main E argc getopt w) := by
  unfold main
  by_cases h1 : argc = 1
  · simp only [h1, if_true]
    exact hfin _ (husage w hw)
  · simp only [h1, if_false]
    exact main_loop_inv_res E I Q hfin hstep getopt w hw

/-- C4: if no device of any bus has the ids 0x05ac:0x8241, `find_ir` returns NULL
without opening anything; each command that needs the device, run while the
handle is not yet set, prints "IR receiver not found, quitting" after
`usb_init` and the enumeration and exits with status 1, nothing else being
done; and a whole run consists of output only, possibly ended by exactly that
exit.  If a device has the ids, `find_ir` opens the first such device in
bus-then-device order and returns what `usb_open` returns. -/
theorem find_ir_absent_or_first (E : Env) (w : World) :
    ((∀ bus ∈ E.usb_busses, ∀ dev ∈ bus.devices,
        ¬ (dev.idVendor = 0x05ac ∧ dev.idProduct = 0x8241)) →
      find_ir E w = .ok none w ∧
      (w.ir = none →
        reattach E w = .exit 1 ⟨none, w.trace ++ not_found_events⟩ ∧
        (∀ full, set_fan E full w = .exit 1 ⟨none, w.trace ++ not_found_events⟩) ∧
        (∀ high, set_led_brightness E high w = .exit 1 ⟨none, w.trace ++ not_found_events⟩) ∧
        (∀ mode, 0 ≤ mode → mode ≤ 5 →
          set_led E mode w = .exit 1 ⟨none, w.trace ++ not_found_events⟩)) ∧
      (∀ argc getopt, ∃ out, (∀ e ∈ out, is_print e = true) ∧
        ((main E argc getopt World.start).world = ⟨none, out⟩ ∨
          main E argc getopt World.start = .exit 1 ⟨none, out ++ not_found_events⟩))) ∧
    (∀ front d back, all_devices E.usb_busses = front ++ d :: back →
      d.idVendor = 0x05ac ∧ d.idProduct = 0x8241 →
      (∀ x ∈ front, ¬ (x.idVendor = 0x05ac ∧ x.idProduct = 0x8241)) →
      find_ir E w = .ok (E.usb_open d) ⟨w.ir, w.trace ++ [.usb_open d]⟩) := by
  constructor
  · intro habs
    have hf := find_ir_dev_none E.usb_busses habs
    have hexit : ∀ w0 : World, w0.ir = none →
        get_ir E w0 = .exit 1 ⟨none, w0.trace ++ not_found_events⟩ :=
      fun w0 h0 => get_ir_not_found E w0 h0 hf
    refine ⟨by simp [find_ir, hf, pure_apply], ?_, ?_⟩
    · intro hw
      have hg := hexit w hw
      refine ⟨reattach_exit E w _ 1 hg, ?_, ?_, ?_⟩
      · intro full
        rw [set_fan_eq]
        exact run_reports_exit E w _ 1 _ (by simp [fan_reports]) hg
      · intro high
        rw [set_led_brightness_eq]
        exact run_reports_exit E w _ 1 _ (by unfold brightness_reports; split_ifs <;> simp) hg
      · intro mode h0 h5
        rw [set_led_eq]
        exact run_reports_exit E w _ 1 _ (led_reports_valid mode h0 h5).1 hg
    · intro argc getopt
      refine main_inv_res E (fun w => w.ir = none ∧ ∀ e ∈ w.trace, is_print e = true)
        (fun r => ∃ out, (∀ e ∈ out, is_print e = true) ∧
          (r.world = ⟨none, out⟩ ∨ r = .exit 1 ⟨none, out ++ not_found_events⟩))
        ?_ ?_ ?_ argc getopt World.start ⟨rfl, by simp [World.start]⟩
      · intro w0 hw0
        refine ⟨w0.trace, hw0.2, Or.inl ?_⟩
        cases w0
        simp only [Res.world] at hw0 ⊢
        rw [hw0.1]
      · intro w0 hw0
        refine ⟨hw0.1, ?_⟩
        intro e he
        rcases List.mem_append.mp he with he | he
        · exact hw0.2 e he
        · simp only [List.mem_singleton] at he
          subst he
          rfl
      · intro c optarg w0 hw0
        rcases main_switch_summary E c optarg with ⟨_, hm⟩ | ⟨_, L, hL, _, hm⟩ | ⟨_, evs, hp, hm⟩
        · rw [hm, reattach_exit E w0 _ 1 (hexit w0 hw0.1)]
          exact ⟨w0.trace, hw0.2, Or.inr rfl⟩
        · rw [hm, run_reports_exit E w0 _ 1 L hL (hexit w0 hw0.1)]
          exact ⟨w0.trace, hw0.2, Or.inr rfl⟩
        · have hall : ∀ e ∈ w0.trace ++ evs, is_print e = true := by
            intro e he
            rcases List.mem_append.mp he with he | he
            · exact hw0.2 e he
            · exact hp e he
          have hwd := hm w0
          cases hr : main_switch E c optarg w0 with
          | ok a w1 =>
            rw [hr] at hwd
            simp only [Res.world] at hwd
            subst hwd
            exact ⟨hw0.1, hall⟩
          | exit st w1 =>
            rw [hr] at hwd
            simp only [Res.world] at hwd
            subst hwd
            exact ⟨w0.trace ++ evs, hall, Or.inl (by simp [Res.world, hw0.1])⟩
          | killed sg w1 =>
            rw [hr] at hwd
            simp only [Res.world] at hwd
            subst hwd
            exact ⟨w0.trace ++ evs, hall, Or.inl (by simp [Res.world, hw0.1])⟩
  · intro front d back hsplit hd hfront
    have hf := find_ir_dev_first E.usb_busses front back d hsplit hd hfront
    simp [find_ir, hf, bind_apply, pure_apply, emit]

theorem find_ir_absent_or_first_witness :
    ((∀ bus ∈ sample_env_absent.usb_busses, ∀ dev ∈ bus.devices,
        ¬ (dev.idVendor = 0x05ac ∧ dev.idProduct = 0x8241)) ∧ World.start.ir = none) ∧
    reattach sample_env_absent World.start = .exit 1 ⟨none, not_found_events⟩ :=
  ⟨⟨by decide, rfl⟩,
   ((find_ir_absent_or_first sample_env_absent World.start).1 (by decide)).2.1 rfl |>.1⟩

/-! ## One handle per process (C7) -/

/-- One iteration of the loop of `main`, seen from the trace: output only; or
`get_ir` exits; or `get_ir` returns the handle and the command is `reattach`,
which releases, closes and runs the attach step, or is a non-empty sequence of
control transfers. -/
theorem main_switch_cases (E : Env) (c : Int) (optarg : String) (w : World) :
    (c ≠ chr 'r' ∧ ∃ evs, (∀ e ∈ evs, is_print e = true) ∧
      (main_switch E c optarg w).world = ⟨w.ir, w.trace ++ evs⟩) ∨
    (∃ st w1, get_ir E w = .exit st w1 ∧ main_switch E c optarg w = .exit st w1) ∨
    (∃ h w1, get_ir E w = .ok h w1 ∧
      ((c = chr 'r' ∧ ∃ evs, (∀ e ∈ evs, is_attach_op h e = true) ∧
          (main_switch E c optarg w).world = ⟨some h, w1.trace ++ release_close h ++ evs⟩) ∨
       (c ≠ chr 'r' ∧ ∃ L, L ≠ [] ∧
          main_switch E c optarg w = .ok () ⟨some h, w1.trace ++ L.map (report_event h)⟩))) := by
  rcases main_switch_summary E c optarg with ⟨hc, hm⟩ | ⟨hc, L, hL, _, hm⟩ | ⟨hc, evs, hp, hm⟩
  · rcases get_ir_result E w with ⟨h, w1, hg⟩ | ⟨w1, hg⟩
    · obtain ⟨evs, hev, hp⟩ := reattach_ok E w w1 h hg
      exact Or.inr (Or.inr ⟨h, w1, hg, Or.inl ⟨hc, evs, hp, by rw [hm]; exact hev⟩⟩)
    · exact Or.inr (Or.inl ⟨1, w1, hg, by rw [hm, reattach_exit E w w1 1 hg]⟩)
  · rcases get_ir_result E w with ⟨h, w1, hg⟩ | ⟨w1, hg⟩
    · exact Or.inr (Or.inr ⟨h, w1, hg, Or.inr ⟨hc, L, hL,
        by rw [hm, run_reports_ok E w w1 h L hL hg]⟩⟩)
    · exact Or.inr (Or.inl ⟨1, w1, hg, by rw [hm, run_reports_exit E w w1 1 L hL hg]⟩)
  · exact Or.inl ⟨hc, evs, hp, hm w⟩

theorem open_ops_append (a b : List Event) : open_ops (a ++ b) = open_ops a ++ open_ops b := by
  simp [open_ops]

theorem handles_append (a b : List Event) : handles (a ++ b) = handles a ++ handles b := by
  simp [handles]

theorem open_ops_prints (evs : List Event) (h : ∀ e ∈ evs, is_print e = true) :
    open_ops evs = [] := by
  simp only [open_ops, List.filter_eq_nil_iff]
  intro e he
  have := h e he
  cases e <;> simp_all [is_print, is_open_op]

theorem handles_prints (evs : List Event) (h : ∀ e ∈ evs, is_print e = true) :
    handles evs = [] := by
  induction evs with
  | nil => rfl
  | cons e rest ih =>
    have he := h e (List.mem_cons_self _ _)
    have hr := ih (fun x hx => h x (List.mem_cons_of_mem _ hx))
    simp only [handles] at hr
    cases e
    case stdout t => simpa [handles, handle_of] using hr
    case stderr t => simpa [handles, handle_of] using hr
    all_goals exact absurd he (by simp [is_print])

theorem open_ops_reports (h : usb_dev_handle) (L : List (List Nat × Int)) :
    open_ops (L.map (report_event h)) = [] := by
  simp only [open_ops, List.filter_eq_nil_iff]
  intro e he
  obtain ⟨p, _, rfl⟩ := List.mem_map.mp he
  simp [report_event, is_open_op]

theorem handles_reports (h : usb_dev_handle) (L : List (List Nat × Int)) :
    ∀ x ∈ handles (L.map (report_event h)), x = h := by
  intro x hx
  simp only [handles, List.mem_filterMap, List.mem_map] at hx
  obtain ⟨e, ⟨p, _, rfl⟩, he⟩ := hx
  simp only [report_event, handle_of, Option.some.injEq] at he
  exact he.symm

theorem once_inv_end (w : World) (h : once_inv w) : once_end w := by
  rcases h with ⟨_, ho, hh⟩ | ⟨dev, h, _, ho, hh⟩
  · exact ⟨Or.inl ho, by rw [hh]; simp⟩
  · exact ⟨Or.inr (Or.inr (Or.inr ⟨dev, h, ho⟩)), fun x hx y hy => by rw [hh x hx, hh y hy]⟩

theorem open_ops_attach (h : usb_dev_handle) (evs : List Event)
    (hp : ∀ e ∈ evs, is_attach_op h e = true) : open_ops evs = [] := by
  simp only [open_ops, List.filter_eq_nil_iff]
  intro e he
  have := hp e he
  cases e <;> simp_all [is_attach_op, is_open_op]

theorem handles_attach (h : usb_dev_handle) (evs : List Event)
    (hp : ∀ e ∈ evs, is_attach_op h e = true) : ∀ x ∈ handles evs, x = h := by
  intro x hx
  simp only [handles, List.mem_filterMap] at hx
  obtain ⟨e, he, hxe⟩ := hx
  have := hp e he
  cases e <;> simp_all [is_attach_op, handle_of]

theorem get_ir_once (E : Env) (w : World) (hI : once_inv w) :
    match get_ir E w with
    | .ok h w1 => ∃ dev, w1.ir = some h ∧ open_ops w1.trace = open_events dev h ∧
        ∀ x ∈ handles w1.trace, x = h
    | .exit _ w1 => once_end w1
    | .killed _ _ => False := by
  rcases get_ir_summary E w with ⟨h, hw, hg⟩ | ⟨hw, _, hg⟩ | ⟨dev, hw, _, _, hg⟩ |
      ⟨dev, h, hw, _, _, hg⟩
  · rw [hg]
    rcases hI with ⟨hn, _, _⟩ | ⟨dev, h0, hs, ho, hh⟩
    · rw [hn] at hw; cases hw
    · rw [hs] at hw
      cases hw
      exact ⟨dev, hs, ho, hh⟩
  all_goals
    rcases hI with ⟨_, ho, hh⟩ | ⟨dev0, h0, hs, _, _⟩
    swap
    · rw [hs] at hw; cases hw
    rw [hg]
  · exact ⟨Or.inr (Or.inl (by rw [open_ops_append, ho]; rfl)),
      by rw [handles_append, hh]; simp [handles, handle_of]⟩
  · exact ⟨Or.inr (Or.inr (Or.inl ⟨dev, by rw [open_ops_append, ho]; rfl⟩)),
      by rw [handles_append, hh]; simp [handles, handle_of]⟩
  · refine ⟨dev, rfl, by rw [open_ops_append, ho]; rfl, ?_⟩
    rw [handles_append, hh]
    simp [handles, handle_of]

theorem main_switch_once (E : Env) (c : Int) (optarg : String) (w : World) (hI : once_inv w) :
    (main_switch E c optarg w).sat once_inv once_end := by
  rcases main_switch_cases E c optarg w with ⟨_, evs, hp, hm⟩ | ⟨st, w1, hg, hm⟩ |
      ⟨h, w1, hg, hcmd⟩
  · apply sat_of_world _ _ once_inv_end
    rw [hm]
    rcases hI with ⟨hn, ho, hh⟩ | ⟨dev, h, hs, ho, hh⟩
    · exact Or.inl ⟨hn, by rw [open_ops_append, ho, open_ops_prints evs hp]; rfl,
        by rw [handles_append, hh, handles_prints evs hp]; rfl⟩
    · refine Or.inr ⟨dev, h, hs, by rw [open_ops_append, ho, open_ops_prints evs hp]; simp, ?_⟩
      rw [handles_append, handles_prints evs hp]
      simpa using hh
  · have := get_ir_once E w hI
    rw [hg] at this
    rw [hm]
    exact this
  · have := get_ir_once E w hI
    rw [hg] at this
    obtain ⟨dev, _, ho, hh⟩ := this
    rcases hcmd with ⟨_, evs, hp, hm⟩ | ⟨_, L, _, hm⟩
    · apply sat_of_world _ _ once_inv_end
      rw [hm]
      refine Or.inr ⟨dev, h, rfl, ?_, ?_⟩
      · rw [open_ops_append, open_ops_append, ho, open_ops_attach h evs hp]
        simp [open_ops, release_close, is_open_op]
      · intro x hx
        rw [handles_append, handles_append] at hx
        rcases List.mem_append.mp hx with hx | hx
        · rcases List.mem_append.mp hx with hx | hx
          · exact hh x hx
          · simp [handles, release_close, handle_of] at hx
            exact hx
        · exact handles_attach h evs hp x hx
    · rw [hm]
      refine Or.inr ⟨dev, h, rfl, ?_, ?_⟩
      · rw [open_ops_append, ho, open_ops_reports]; simp
      · intro x hx
        rw [handles_append] at hx
        rcases List.mem_append.mp hx with hx | hx
        · exact hh x hx
        · exact handles_reports h L x hx

/-- C7: a call of `get_ir` with the handle set returns that handle and does
nothing; a call with the handle unset that returns has performed exactly
`usb_init`, the two enumerations, `usb_open`, the kernel-driver detach, the
claim of interface 0 and set-configuration 1; and over a whole run these
operations are performed at most once, every operation that takes a handle
taking the same one. -/
theorem get_ir_opens_once (E : Env) (w : World) (argc : Nat) (getopt : List (Int × String)) :
    (∀ h, w.ir = some h → get_ir E w = .ok h w) ∧
    (∀ h w1, w.ir = none → get_ir E w = .ok h w1 →
      ∃ dev, w1 = ⟨some h, w.trace ++ [.usb_init, .usb_find_busses, .usb_find_devices,
        .usb_open dev, .usb_detach_kernel_driver_np h 0, .usb_claim_interface h 0,
        .usb_set_configuration h 1]⟩) ∧
    ((open_ops (main E argc getopt World.start).world.trace = [] ∨
      open_ops (main E argc getopt World.start).world.trace =
        [.usb_init, .usb_find_busses, .usb_find_devices] ∨
      (∃ dev, open_ops (main E argc getopt World.start).world.trace =
        [.usb_init, .usb_find_busses, .usb_find_devices, .usb_open dev]) ∨
      (∃ dev h, open_ops (main E argc getopt World.start).world.trace =
        [.usb_init, .usb_find_busses, .usb_find_devices, .usb_open dev,
         .usb_detach_kernel_driver_np h 0, .usb_claim_interface h 0,
         .usb_set_configuration h 1])) ∧
     (∀ x ∈ handles (main E argc getopt World.start).world.trace,
      ∀ y ∈ handles (main E argc getopt World.start).world.trace, x = y)) := by
  refine ⟨fun h hw => get_ir_cached E w h hw, ?_, ?_⟩
  · intro h w1 hw hg
    rcases get_ir_summary E w with ⟨h0, hw0, _⟩ | ⟨_, _, hg0⟩ | ⟨dev, _, _, _, hg0⟩ |
        ⟨dev, h0, _, _, _, hg0⟩
    · rw [hw] at hw0; cases hw0
    · rw [hg0] at hg; cases hg
    · rw [hg0] at hg; cases hg
    · rw [hg0] at hg
      cases hg
      exact ⟨dev, rfl⟩
  · exact main_inv E once_inv once_end once_inv_end
      (fun w0 h0 => by
        rcases h0 with ⟨hn, ho, hh⟩ | ⟨dev, h, hs, ho, hh⟩
        · exact Or.inl ⟨hn, by rw [open_ops_append, ho]; rfl, by rw [handles_append, hh]; rfl⟩
        · refine Or.inr ⟨dev, h, hs, by rw [open_ops_append, ho]; simp [open_ops, is_open_op], ?_⟩
          rw [handles_append]
          simpa [handles, handle_of] using hh)
      (main_switch_once E) argc getopt World.start (Or.inl ⟨rfl, rfl, rfl⟩)

theorem get_ir_opens_once_witness :
    sample_opened.ir = some sample_handle ∧
    get_ir sample_env sample_opened = .ok sample_handle sample_opened :=
  ⟨rfl, (get_ir_opens_once sample_env sample_opened 2 []).1 sample_handle rfl⟩

/-! ## The handle after `reattach` (C10) -/

/-- C10: in `atvtool -r`, right after `usb_close` the attach step reads
`dev->bus` and `dev->device` through the closed handle, and on a machine where
that access faults the process is killed there; where the closed handle can
still be read, `atvtool -r -F` goes on and issues the fan transfer on the
closed handle, which `get_ir` still returns. -/
theorem reattach_uses_closed_handle :
    main sample_env 2 [(chr 'r', "")] World.start =
      .killed SIGSEGV ⟨some sample_handle, sample_opened.trace ++
        [.usb_release_interface sample_handle 0, .usb_close sample_handle,
         .handle_read sample_handle]⟩ ∧
    ops_on_closed (main sample_env 2 [(chr 'r', "")] World.start).world.trace =
      [.handle_read sample_handle] ∧
    ops_on_closed (main sample_env_stale 3 [(chr 'r', ""), (chr 'F', "")]
        World.start).world.trace =
      [.handle_read sample_handle,
       .usb_control_msg sample_handle 0x21 9 0x30f 0 [0x0f, 0x01] 2 1000] := by
  refine ⟨?_, ?_, ?_⟩ <;> decide

end Atvtool
